import Mathlib

/-!
Verification development for the TamyrZaim loan-tracking bot (`main.go`).

The embedding translates the data model and the operations of the Go source:
the `loans` and `repayments` tables become lists kept in insertion (rowid)
order, the per-user conversation state becomes `UserState`, and each handler
(`HandleAddLoanStep`, `HandleRepayLoanStep`, `HandlePartialRepaymentStep`,
`HandleEditLoanStep`, `HandleSearchStep`) becomes a pure function from the
session record, the database and the inbound text to the new session record
(`none` encodes `ClearState`), the new database and an outbound reply tag.
SQL queries are translated statement by statement; `db.Exec` failures that the
source handles are modelled with explicit failure flags where a claim is about
them.
-/

namespace TamyrZaim

/-- Go `strconv.ParseInt(s, 10, 64)`: optional sign, one or more ASCII digits,
64-bit range check; `none` models `err != nil`. -/
def goParseInt (s : String) : Option Int :=
  let (sign, digits) :=
    match s.toList with
    | '-' :: rest => ((-1 : Int), rest)
    | '+' :: rest => ((1 : Int), rest)
    | l => ((1 : Int), l)
  if digits.isEmpty then none
  else if digits.all (·.isDigit) then
    let n : Nat := digits.foldl (fun a c => a * 10 + (c.toNat - '0'.toNat)) 0
    let v : Int := sign * (n : Int)
    if v < -(2 ^ 63) ∨ 2 ^ 63 - 1 < v then none else some v
  else none

/-- Go `strconv.Atoi` (64-bit platform): same acceptance as `ParseInt(s,10,64)`. -/
def goAtoi (s : String) : Option Int := goParseInt s

/-- Go `v, _ := strconv.ParseInt(s, 10, 64)` with the error discarded: Go
returns 0 alongside a syntax error. -/
def goParseIntD (s : String) : Int := (goParseInt s).getD 0

/-- SQLite's default `LIKE` case folding (ASCII only), applied per character;
Lean's `Char.toLower` is likewise ASCII-only. -/
def sqlLower (s : String) : List Char := s.toList.map Char.toLower

/-- Contiguous-sublist test on character lists. -/
def charsInfixOf (needle : List Char) : List Char → Bool
  | [] => needle.isEmpty
  | c :: rest => needle.isPrefixOf (c :: rest) || charsInfixOf needle rest

/-- SQLite `borrower_name LIKE '%' || q || '%'` for a query `q` without the
wildcard metacharacters `%`/`_`: ASCII-case-insensitive substring match. -/
def likeContains (hay q : String) : Bool :=
  charsInfixOf (sqlLower q) (sqlLower hay)

/-! ## Ledger data model (tables `loans` and `repayments`) -/

/-- A row of the `loans` table. -/
structure Loan where
  id : Int
  userId : Int
  borrower : String
  amount : Int
  purpose : String
  repaid : Bool
deriving Repr, DecidableEq

/-- A row of the `repayments` table. -/
structure Repayment where
  userId : Int
  loanId : Int
  amount : Int
  date : String
  note : String
deriving Repr, DecidableEq

/-- Both tables, rows in insertion (rowid) order, which is the order SQLite
returns them for the source's `SELECT`s (none has an `ORDER BY`). -/
structure Ledger where
  loans : List Loan
  repayments : List Repayment
deriving Repr, DecidableEq

def ledgerEmpty : Ledger := ⟨[], []⟩

/-- `SELECT COALESCE(SUM(amount), 0) FROM repayments WHERE user_id = ? AND loan_id = ?`
(`GetTotalRepaidAmount`). -/
def getTotalRepaidAmount (db : Ledger) (chatID loanID : Int) : Int :=
  ((db.repayments.filter (fun r => r.userId = chatID ∧ r.loanId = loanID)).map
    (·.amount)).sum

/-- `SELECT ... FROM loans WHERE user_id = ? AND loan_id = ?` scanned into one
row (`GetLoanByID`); `none` models `sql.ErrNoRows`. -/
def getLoanByID (db : Ledger) (chatID loanID : Int) : Option Loan :=
  db.loans.find? (fun l => l.userId = chatID ∧ l.id = loanID)

/-- `SELECT loan_id, ... FROM loans WHERE user_id = ? AND repaid = 0`
(`GetActiveLoansForUser`, also `ShowBalance`). -/
def getActiveLoansForUser (db : Ledger) (chatID : Int) : List Loan :=
  db.loans.filter (fun l => l.userId = chatID ∧ l.repaid = false)

/-- `SELECT ... FROM loans WHERE user_id = ?` (`GetAllLoansForUser`). -/
def getAllLoansForUser (db : Ledger) (chatID : Int) : List Loan :=
  db.loans.filter (fun l => l.userId = chatID)

/-- `SELECT ... FROM loans WHERE user_id = ? AND repaid = ?` (`ShowLoansByStatus`). -/
def getLoansByStatus (db : Ledger) (chatID : Int) (repaidStatus : Bool) : List Loan :=
  db.loans.filter (fun l => l.userId = chatID ∧ l.repaid = repaidStatus)

/-- `SELECT ... FROM loans WHERE user_id = ? AND borrower_name LIKE ?` with the
pattern `"%" + text + "%"` (`HandleSearchStep`, search by name). -/
def searchLoansByName (db : Ledger) (chatID : Int) (text : String) : List Loan :=
  db.loans.filter (fun l => l.userId = chatID ∧ likeContains l.borrower text)

/-- `SELECT COALESCE(MAX(loan_id), 0) + 1 FROM loans WHERE user_id = ?`
(loan-id allocation in `HandleAddLoanStep`, step 2). -/
def nextLoanId (db : Ledger) (chatID : Int) : Int :=
  (((db.loans.filter (fun l => l.userId = chatID)).map (·.id)).max?.getD 0) + 1

/-- `loan.Amount - GetTotalRepaidAmount(...)`, the remaining balance the source
computes wherever it displays an active loan; `0` when the loan row is absent. -/
def remainingBalance (db : Ledger) (chatID loanID : Int) : Int :=
  match getLoanByID db chatID loanID with
  | some loan => loan.amount - getTotalRepaidAmount db chatID loanID
  | none => 0

/-- `INSERT INTO repayments (user_id, loan_id, amount, repayment_date, note) VALUES (...)`. -/
def addRepayment (db : Ledger) (r : Repayment) : Ledger :=
  { db with repayments := db.repayments ++ [r] }

/-- `UPDATE loans SET repaid = 1 WHERE user_id = ? AND loan_id = ?`. -/
def setRepaid (db : Ledger) (chatID loanID : Int) : Ledger :=
  { db with
    loans := db.loans.map (fun l =>
      if l.userId = chatID ∧ l.id = loanID then { l with repaid := true } else l) }

/-- `UPDATE loans SET borrower_name = ? WHERE user_id = ? AND loan_id = ?`. -/
def updateBorrower (db : Ledger) (chatID loanID : Int) (v : String) : Ledger :=
  { db with
    loans := db.loans.map (fun l =>
      if l.userId = chatID ∧ l.id = loanID then { l with borrower := v } else l) }

/-- `UPDATE loans SET amount = ? WHERE user_id = ? AND loan_id = ?`. -/
def updateAmount (db : Ledger) (chatID loanID : Int) (v : Int) : Ledger :=
  { db with
    loans := db.loans.map (fun l =>
      if l.userId = chatID ∧ l.id = loanID then { l with amount := v } else l) }

/-- `UPDATE loans SET purpose = ? WHERE user_id = ? AND loan_id = ?`. -/
def updatePurpose (db : Ledger) (chatID loanID : Int) (v : String) : Ledger :=
  { db with
    loans := db.loans.map (fun l =>
      if l.userId = chatID ∧ l.id = loanID then { l with purpose := v } else l) }

/-- The loan insertion of `HandleAddLoanStep` step 2: allocate
`COALESCE(MAX(loan_id),0)+1` and `INSERT ... repaid = 0`. Returns the new id. -/
def createLoan (db : Ledger) (chatID : Int) (borrower : String) (amount : Int)
    (purpose : String) : Ledger × Int :=
  let nid := nextLoanId db chatID
  ({ db with loans := db.loans ++ [⟨nid, chatID, borrower, amount, purpose, false⟩] }, nid)

/-- The full-repayment effect of `HandleRepayLoanStep` (step 0 requires an
active loan; step 1 on «да» runs `UPDATE loans SET repaid = 1` then inserts a
repayment whose amount is the loan's stored `amount` column). The
`insertFails` flag models the second `db.Exec` failing, after which the source
logs the error and proceeds with the loan already marked repaid. -/
def markFullyRepaidF (db : Ledger) (chatID loanID : Int) (date : String)
    (insertFails : Bool) : Option Ledger :=
  match getLoanByID db chatID loanID with
  | none => none
  | some loan =>
    if loan.repaid then none
    else
      let db1 := setRepaid db chatID loanID
      if insertFails then some db1
      else some (addRepayment db1 ⟨chatID, loanID, loan.amount, date, "Полный возврат"⟩)

/-- `markFullyRepaidF` with both writes succeeding. -/
def markFullyRepaid (db : Ledger) (chatID loanID : Int) (date : String) : Option Ledger :=
  markFullyRepaidF db chatID loanID date false

/-- The partial-repayment effect: the `partial_` callback stages
`remaining = loan.Amount - GetTotalRepaidAmount`, step 1 of
`HandlePartialRepaymentStep` rejects `amount <= 0` and `amount > remaining`,
step 2 inserts the repayment and flips `repaid` when the staged remainder
reaches zero. `none` models rejection (no write). -/
def partialRepay (db : Ledger) (chatID loanID amount : Int) (date note : String) :
    Option Ledger :=
  match getLoanByID db chatID loanID with
  | none => none
  | some loan =>
    let remaining := loan.amount - getTotalRepaidAmount db chatID loanID
    if amount ≤ 0 ∨ remaining < amount then none
    else
      let db1 := addRepayment db ⟨chatID, loanID, amount, date, note⟩
      if remaining - amount = 0 then some (setRepaid db1 chatID loanID) else some db1

/-- `DeleteLoan`: the body of the committed transaction — delete the loan's
repayments, then the loan row. -/
def deleteLoan (db : Ledger) (chatID loanID : Int) : Ledger :=
  { loans := db.loans.filter (fun l => ¬ (l.userId = chatID ∧ l.id = loanID)),
    repayments :=
      db.repayments.filter (fun r => ¬ (r.userId = chatID ∧ r.loanId = loanID)) }

/-- Where `DeleteLoan`'s transaction can fail: the first `Exec`, the second
`Exec`, or `Commit`; `noFail` is the success path. -/
inductive TxFail where
  | noFail
  | atRepayments
  | atLoan
  | atCommit
deriving Repr, DecidableEq

/-- `DeleteLoan` with its transaction semantics: `tx.Begin` stages writes that
only `Commit` publishes; every error path calls `tx.Rollback` (or fails to
commit), so the database is unchanged unless the whole unit succeeds. Returns
the resulting database and whether the call returned `nil` error. -/
def deleteLoanTx (db : Ledger) (chatID loanID : Int) (f : TxFail) : Ledger × Bool :=
  match f with
  | .noFail => (deleteLoan db chatID loanID, true)
  | .atRepayments => (db, false)
  | .atLoan => (db, false)
  | .atCommit => (db, false)

/-! ## Session State Store (`BotManager.userStates`) -/

/-- A session record (`UserState` in the source). The scratch `Data` map is
modelled as an association list (replace-on-set), which realises exactly the
get/set interface the source uses on the Go map. -/
structure UserState where
  operation : String
  step : Int
  data : List (String × String)
  lastUpdated : Nat
deriving Repr, DecidableEq

/-- Go `state.Data[key]` read as `(value, ok)`. -/
def dataGet (d : List (String × String)) (k : String) : Option String :=
  (d.find? (fun p => p.1 = k)).map (·.2)

/-- Go `state.Data[key] = value`. -/
def dataSet (d : List (String × String)) (k v : String) : List (String × String) :=
  if d.any (fun p => p.1 = k) then d.map (fun p => if p.1 = k then (k, v) else p)
  else d ++ [(k, v)]

/-- The store `userStates`, keyed by chat id. -/
def Store : Type := Int → Option UserState

/-- `SetState`: sets `Operation`, `Step` and `LastUpdated`, creating a record
with an empty `Data` map when none exists. -/
def setState (s : Store) (chatID : Int) (op : String) (step : Int) (now : Nat) : Store :=
  fun i =>
    if i = chatID then
      some (match s chatID with
        | some st => { st with operation := op, step := step, lastUpdated := now }
        | none => { operation := op, step := step, data := [], lastUpdated := now })
    else s i

/-- `ClearState`: `delete(m.userStates, chatID)`. -/
def clearState (s : Store) (chatID : Int) : Store :=
  fun i => if i = chatID then none else s i

/-- `SaveStateData`: stores one scratch key, creating a blank record
(`Operation = ""`, `Step = 0`) when none exists. -/
def saveStateData (s : Store) (chatID : Int) (k v : String) : Store :=
  fun i =>
    if i = chatID then
      some (match s chatID with
        | some st => { st with data := dataSet st.data k v }
        | none => { operation := "", step := 0, data := dataSet [] k v, lastUpdated := 0 })
    else s i

/-- `GetStateData`: `(value, present)` becomes `Option String`. -/
def getStateData (s : Store) (chatID : Int) (k : String) : Option String :=
  match s chatID with
  | none => none
  | some st => dataGet st.data k

/-! ## Conversation State Machine

Each handler is the pure content of the corresponding `Handle...Step` method:
it consumes the chat's session record and the database and yields the session
record afterwards (`none` = `ClearState`), the database afterwards and a tag
naming the outbound reply branch the source takes. -/

/-- Go `strings.ToLower` restricted to the code points the source compares
(ASCII plus the Cyrillic range А–Я used by «да»/«нет»). -/
def goToLowerChar (c : Char) : Char :=
  if 'А' ≤ c ∧ c ≤ 'Я' then Char.ofNat (c.toNat + 32) else c.toLower

/-- Go `strings.ToLower` on the inputs this program compares. -/
def goToLower (s : String) : String := ⟨s.toList.map goToLowerChar⟩

/-- Reply branches of `HandleAddLoanStep`. -/
inductive AddLoanReply where
  | errEmptyName
  | promptAmount
  | errBadAmount
  | promptPurpose
  | errEmptyPurpose
  | created (loanId : Int)
  | noop
deriving Repr, DecidableEq

/-- `HandleAddLoanStep`. Step 0 stages a non-empty borrower name; step 1
stages any input `strconv.ParseInt` accepts (there is no positivity check in
the source); step 2 stages a non-empty purpose, allocates
`COALESCE(MAX(loan_id),0)+1` and inserts the loan with `repaid = 0`, then
clears the session. The staged decimal strings are read back through SQLite's
integer affinity, which on the strings this flow stages is `goParseInt`. -/
def handleAddLoanStep (st : UserState) (db : Ledger) (chatID : Int) (text : String)
    (now : Nat) : Option UserState × Ledger × AddLoanReply :=
  if st.step = 0 then
    if text = "" then (some st, db, .errEmptyName)
    else
      (some { st with data := dataSet st.data "borrower_name" text,
                      operation := "addloan", step := 1, lastUpdated := now },
       db, .promptAmount)
  else if st.step = 1 then
    match goParseInt text with
    | none => (some st, db, .errBadAmount)
    | some amount =>
      (some { st with data := dataSet st.data "amount" (toString amount),
                      operation := "addloan", step := 2, lastUpdated := now },
       db, .promptPurpose)
  else if st.step = 2 then
    if text = "" then (some st, db, .errEmptyPurpose)
    else
      let st1 := { st with data := dataSet st.data "purpose" text }
      let borrower := (dataGet st1.data "borrower_name").getD ""
      let amount := goParseIntD ((dataGet st1.data "amount").getD "")
      let purpose := (dataGet st1.data "purpose").getD ""
      let res := createLoan db chatID borrower amount purpose
      (none, res.1, .created res.2)
  else (some st, db, .noop)

/-- Reply branches of `HandleRepayLoanStep`. -/
inductive RepayReply where
  | errBadId
  | errScan
  | notFoundOrRepaid
  | confirmPrompt (loanId : Int) (borrower : String) (amount : Int)
  | repaidDone (loanId : Int)
  | cancelled
  | askYesNo
  | noop
deriving Repr, DecidableEq

/-- `HandleRepayLoanStep`. Step 0 parses a loan id; the single `QueryRow`
scans `EXISTS(... AND repaid = 0)` together with the loan's columns, so a
missing row is a scan error (clear state, main menu) while an existing but
repaid row is the «не найден или уже погашен» branch that keeps the session.
Step 1 on «да» runs the repaid update and then inserts the staged amount as a
repayment; «нет» cancels; anything else re-asks. -/
def handleRepayLoanStep (st : UserState) (db : Ledger) (chatID : Int) (text : String)
    (now : Nat) (date : String) : Option UserState × Ledger × RepayReply :=
  if st.step = 0 then
    match goAtoi text with
    | none => (some st, db, .errBadId)
    | some loanID =>
      match getLoanByID db chatID loanID with
      | none => (none, db, .errScan)
      | some loan =>
        if loan.repaid then (some st, db, .notFoundOrRepaid)
        else
          (some { st with
                    data := dataSet (dataSet (dataSet st.data "loan_id" text)
                      "borrower" loan.borrower) "amount" (toString loan.amount),
                    operation := "repayloan", step := 1, lastUpdated := now },
           db, .confirmPrompt loanID loan.borrower loan.amount)
  else if st.step = 1 then
    let confirmation := goToLower text
    if confirmation = "да" then
      let loanID := goParseIntD ((dataGet st.data "loan_id").getD "")
      let amount := goParseIntD ((dataGet st.data "amount").getD "")
      let db1 := setRepaid db chatID loanID
      let db2 := addRepayment db1 ⟨chatID, loanID, amount, date, "Полный возврат"⟩
      (none, db2, .repaidDone loanID)
    else if confirmation = "нет" then (none, db, .cancelled)
    else (some st, db, .askYesNo)
  else (some st, db, .noop)

/-- Reply branches of `HandlePartialRepaymentStep`. -/
inductive PartialReply where
  | errState
  | errBadAmount
  | errOverRemaining (amount remaining : Int)
  | promptNote
  | fullyRepaid (amount : Int)
  | recorded (amount remaining : Int)
  | noop
deriving Repr, DecidableEq

/-- `HandlePartialRepaymentStep`. The staged `loan_id` is re-parsed on every
call (an unparsable value clears the session); the staged `remaining_amount`
is parsed with the error discarded. Step 1 rejects unparsable or non-positive
amounts and amounts above the staged remainder without any write; step 2
inserts the repayment and, when the staged remainder minus the staged amount
is zero, also flips `repaid`, then clears the session. -/
def handlePartialRepaymentStep (st : UserState) (db : Ledger) (chatID : Int)
    (text : String) (now : Nat) (date : String) :
    Option UserState × Ledger × PartialReply :=
  match goAtoi ((dataGet st.data "loan_id").getD "") with
  | none => (none, db, .errState)
  | some loanID =>
    let remaining := goParseIntD ((dataGet st.data "remaining_amount").getD "")
    if st.step = 1 then
      match goParseInt text with
      | none => (some st, db, .errBadAmount)
      | some amount =>
        if amount ≤ 0 then (some st, db, .errBadAmount)
        else if remaining < amount then (some st, db, .errOverRemaining amount remaining)
        else
          (some { st with data := dataSet st.data "repayment_amount" (toString amount),
                          operation := "partialrepay", step := 2, lastUpdated := now },
           db, .promptNote)
    else if st.step = 2 then
      let amount := goParseIntD ((dataGet st.data "repayment_amount").getD "")
      let note := if text = "-" then "" else text
      let db1 := addRepayment db ⟨chatID, loanID, amount, date, note⟩
      let newRemaining := remaining - amount
      if newRemaining = 0 then (none, setRepaid db1 chatID loanID, .fullyRepaid amount)
      else (none, db1, .recorded amount newRemaining)
    else (some st, db, .noop)

/-- Reply branches of `HandleEditLoanStep`. -/
inductive EditReply where
  | errState
  | nameUpdated
  | errBadAmount
  | amountUpdated
  | purposeUpdated
  | errUnknownField
  | noop
deriving Repr, DecidableEq

/-- `HandleEditLoanStep`. The staged `loan_id` is re-parsed (unparsable clears
the session). At step 1 the staged `edit_field` selects the column; only the
amount field is validated (`err != nil || amount <= 0` re-prompts without a
write); every completed or unknown-field branch clears the session. -/
def handleEditLoanStep (st : UserState) (db : Ledger) (chatID : Int) (text : String) :
    Option UserState × Ledger × EditReply :=
  match goAtoi ((dataGet st.data "loan_id").getD "") with
  | none => (none, db, .errState)
  | some loanID =>
    let editField := (dataGet st.data "edit_field").getD ""
    if st.step = 1 then
      if editField = "name" then
        (none, updateBorrower db chatID loanID text, .nameUpdated)
      else if editField = "amount" then
        match goParseInt text with
        | none => (some st, db, .errBadAmount)
        | some amount =>
          if amount ≤ 0 then (some st, db, .errBadAmount)
          else (none, updateAmount db chatID loanID amount, .amountUpdated)
      else if editField = "purpose" then
        (none, updatePurpose db chatID loanID text, .purposeUpdated)
      else (none, db, .errUnknownField)
    else (some st, db, .noop)

/-- Reply branches of `HandleSearchStep`. -/
inductive SearchReply where
  | nothingFound (query : String)
  | results (loans : List Loan)
  | noop
deriving Repr, DecidableEq

/-- `HandleSearchStep`. At step 0 with `search_type = "by_name"` it runs the
`LIKE` query; an empty result list sends the dedicated «ничего не найдено»
message, a non-empty one renders the rows; either way the session is cleared.
Any other step or search type does nothing. -/
def handleSearchStep (st : UserState) (db : Ledger) (chatID : Int) (text : String) :
    Option UserState × Ledger × SearchReply :=
  if st.step = 0 ∧ (dataGet st.data "search_type").getD "" = "by_name" then
    let found := searchLoansByName db chatID text
    if found.isEmpty then (none, db, .nothingFound text)
    else (none, db, .results found)
  else (some st, db, .noop)

/-! ## Ledger operations as a state machine

The flows' terminal ledger effects (claim C1's operation list), each applied
for an owner; a rejected operation leaves the ledger unchanged, exactly as
the flows perform no write on rejection. -/

inductive LedgerOp where
  | createOp (borrower : String) (amount : Int) (purpose : String)
  | markRepaidOp (loanId : Int) (date : String)
  | partialRepayOp (loanId amount : Int) (date note : String)
  | editNameOp (loanId : Int) (v : String)
  | editAmountOp (loanId : Int) (v : Int)
  | editPurposeOp (loanId : Int) (v : String)
  | deleteOp (loanId : Int)
deriving Repr, DecidableEq

/-- Apply one operation for owner `chatID`; validation failures (`none`
results, non-positive edit amounts) leave the ledger unchanged. -/
def applyOp (db : Ledger) (chatID : Int) : LedgerOp → Ledger
  | .createOp b a p => (createLoan db chatID b a p).1
  | .markRepaidOp i d => (markFullyRepaid db chatID i d).getD db
  | .partialRepayOp i a d n => (partialRepay db chatID i a d n).getD db
  | .editNameOp i v => updateBorrower db chatID i v
  | .editAmountOp i v => if 0 < v then updateAmount db chatID i v else db
  | .editPurposeOp i v => updatePurpose db chatID i v
  | .deleteOp i => deleteLoan db chatID i

def applyOps (db : Ledger) : List (Int × LedgerOp) → Ledger
  | [] => db
  | (c, op) :: rest => applyOps (applyOp db c op) rest

/-- Ledgers producible from the empty database by the program's operations. -/
def Reachable (db : Ledger) : Prop :=
  ∃ ops : List (Int × LedgerOp), db = applyOps ledgerEmpty ops

/-- Every repayment row references an existing loan row. -/
def noOrphans (db : Ledger) : Prop :=
  ∀ r ∈ db.repayments, ∃ l ∈ db.loans, l.userId = r.userId ∧ l.id = r.loanId

/-- Within each owner, stored order carries strictly increasing loan ids
(hence per-owner id uniqueness). -/
def idsSorted (db : Ledger) : Prop :=
  List.Pairwise (fun a b => a.userId = b.userId → a.id < b.id) db.loans

/-- Structural well-formedness, preserved by every operation. -/
def structuralInv (db : Ledger) : Prop := noOrphans db ∧ idsSorted db

/-- The accounting invariant of claim C1: repayments never exceed the
principal, and zero remainder exactly when the repaid flag is set. -/
def acctOk (db : Ledger) : Prop :=
  ∀ l ∈ db.loans,
    getTotalRepaidAmount db l.userId l.id ≤ l.amount ∧
    (l.amount - getTotalRepaidAmount db l.userId l.id = 0 ↔ l.repaid = true)

/-- Side conditions under which an operation respects `acctOk`: positive
principal at creation, full repayment only of loans without prior repayments
(the source inserts the full principal, not the remainder), and amount edits
consistent with the repayment total and repaid flag. -/
def goodOp (db : Ledger) (chatID : Int) : LedgerOp → Prop
  | .createOp _ a _ => 0 < a
  | .markRepaidOp i _ => getTotalRepaidAmount db chatID i = 0
  | .partialRepayOp _ _ _ _ => True
  | .editNameOp _ _ => True
  | .editAmountOp i v =>
      0 < v →
        match getLoanByID db chatID i with
        | none => True
        | some l =>
            getTotalRepaidAmount db chatID i ≤ v ∧
            (v - getTotalRepaidAmount db chatID i = 0 ↔ l.repaid = true)
  | .editPurposeOp _ _ => True
  | .deleteOp _ => True

def goodOps (db : Ledger) : List (Int × LedgerOp) → Prop
  | [] => True
  | (c, op) :: rest => goodOp db c op ∧ goodOps (applyOp db c op) rest

instance (db : Ledger) : Decidable (noOrphans db) := by
  unfold noOrphans; infer_instance

instance (db : Ledger) : Decidable (idsSorted db) := by
  unfold idsSorted; infer_instance

instance (db : Ledger) : Decidable (acctOk db) := by
  unfold acctOk; infer_instance

instance (db : Ledger) : Decidable (structuralInv db) := by
  unfold structuralInv; infer_instance

instance goodOpDecidable (db : Ledger) (c : Int) (op : LedgerOp) :
    Decidable (goodOp db c op) := by
  cases op with
  | editAmountOp i v =>
    simp only [goodOp]
    cases getLoanByID db c i with
    | none => exact inferInstance
    | some l => exact inferInstance
  | createOp b a p => simp only [goodOp]; infer_instance
  | markRepaidOp i d => simp only [goodOp]; infer_instance
  | partialRepayOp i a d n => simp only [goodOp]; infer_instance
  | editNameOp i v => simp only [goodOp]; infer_instance
  | editPurposeOp i v => simp only [goodOp]; infer_instance
  | deleteOp i => simp only [goodOp]; infer_instance

instance goodOpsDecidable : (db : Ledger) → (ops : List (Int × LedgerOp)) →
    Decidable (goodOps db ops)
  | _, [] => by unfold goodOps; infer_instance
  | db, (c, op) :: rest => by
    unfold goodOps
    have := goodOpsDecidable (applyOp db c op) rest
    infer_instance

/-! ## Helper lemmas -/

theorem foldl_max_le_self (t : List Int) : ∀ a : Int, a ≤ t.foldl max a := by
  induction t with
  | nil => intro a; simp
  | cons b t ih => intro a; exact le_trans (le_max_left a b) (ih (max a b))

theorem mem_le_foldl_max (t : List Int) : ∀ a x : Int, x ∈ t → x ≤ t.foldl max a := by
  induction t with
  | nil => intro a x h; cases h
  | cons b t ih =>
    intro a x h
    rcases List.mem_cons.mp h with rfl | h
    · exact le_trans (le_max_right a x) (foldl_max_le_self t (max a x))
    · exact ih (max a b) x h

theorem mem_le_maxD (xs : List Int) (x : Int) (h : x ∈ xs) : x ≤ xs.max?.getD 0 := by
  cases xs with
  | nil => cases h
  | cons a t =>
    rcases List.mem_cons.mp h with rfl | h
    · simpa [List.max?] using foldl_max_le_self t x
    · simpa [List.max?] using mem_le_foldl_max t a x h

/-- Loans an owner already has sit strictly below the allocated id. -/
theorem id_lt_nextLoanId {db : Ledger} {l : Loan} (hl : l ∈ db.loans) {c : Int}
    (hc : l.userId = c) : l.id < nextLoanId db c := by
  have hmem : l.id ∈ (db.loans.filter (fun x => x.userId = c)).map (·.id) := by
    exact List.mem_map_of_mem _ (List.mem_filter.mpr ⟨hl, by simp [hc]⟩)
  have := mem_le_maxD _ _ hmem
  unfold nextLoanId
  omega

/-- With per-owner id uniqueness, looking up a stored loan's own key finds it. -/
theorem find_eq_self_of_pairwise (loans : List Loan)
    (hs : List.Pairwise (fun a b => a.userId = b.userId → a.id < b.id) loans)
    (l : Loan) (hl : l ∈ loans) :
    loans.find? (fun x => x.userId = l.userId ∧ x.id = l.id) = some l := by
  induction loans with
  | nil => cases hl
  | cons a t ih =>
    rcases List.pairwise_cons.mp hs with ⟨ha, ht⟩
    rcases List.mem_cons.mp hl with rfl | hl
    · simp [List.find?]
    · have hpa : ¬ (a.userId = l.userId ∧ a.id = l.id) := by
        rintro ⟨h1, h2⟩
        have := ha l hl h1
        omega
      rw [List.find?_cons_of_neg _ (by simpa using hpa)]
      exact ih ht hl

theorem getLoanByID_self {db : Ledger} (hs : idsSorted db) {l : Loan}
    (hl : l ∈ db.loans) : getLoanByID db l.userId l.id = some l :=
  find_eq_self_of_pairwise db.loans hs l hl

/-- Appending a repayment row adds its amount to exactly its own loan's total. -/
theorem getTotalRepaidAmount_addRepayment (db : Ledger) (r : Repayment) (c i : Int) :
    getTotalRepaidAmount (addRepayment db r) c i =
      getTotalRepaidAmount db c i + (if r.userId = c ∧ r.loanId = i then r.amount else 0) := by
  unfold getTotalRepaidAmount addRepayment
  simp only [List.filter_append, List.map_append, List.sum_append]
  by_cases h : r.userId = c ∧ r.loanId = i <;> simp [h]

theorem getTotalRepaidAmount_setRepaid (db : Ledger) (c i c' i' : Int) :
    getTotalRepaidAmount (setRepaid db c i) c' i' = getTotalRepaidAmount db c' i' := rfl

theorem getTotalRepaidAmount_updateAmount (db : Ledger) (c i : Int) (v : Int) (c' i' : Int) :
    getTotalRepaidAmount (updateAmount db c i v) c' i' = getTotalRepaidAmount db c' i' := rfl

/-- Replacing the loan rows by an id-preserving transformation keeps the
structural invariant. -/
theorem structural_mapLoans (db : Ledger) (f : Loan → Loan)
    (hid : ∀ l, (f l).userId = l.userId ∧ (f l).id = l.id)
    (h : structuralInv db) : structuralInv { db with loans := db.loans.map f } := by
  obtain ⟨hno, hs⟩ := h
  constructor
  · intro r hr
    obtain ⟨l, hl, h1, h2⟩ := hno r hr
    exact ⟨f l, List.mem_map_of_mem f hl,
      by rw [(hid l).1, h1], by rw [(hid l).2, h2]⟩
  · unfold idsSorted at hs ⊢
    simp only [List.pairwise_map]
    refine hs.imp ?_
    intro a b hab
    rw [(hid a).1, (hid b).1, (hid a).2, (hid b).2]
    exact hab

/-- Appending a repayment row whose loan exists keeps the structural invariant. -/
theorem structural_addRepayment (db : Ledger) (r : Repayment)
    (hr : ∃ l ∈ db.loans, l.userId = r.userId ∧ l.id = r.loanId)
    (h : structuralInv db) : structuralInv (addRepayment db r) := by
  obtain ⟨hno, hs⟩ := h
  refine ⟨?_, hs⟩
  intro r' hr'
  rcases List.mem_append.mp hr' with hmem | hmem
  · exact hno r' hmem
  · rcases List.mem_singleton.mp hmem with rfl
    exact hr

theorem structural_createLoan (db : Ledger) (c : Int) (b : String) (a : Int) (p : String)
    (h : structuralInv db) : structuralInv (createLoan db c b a p).1 := by
  obtain ⟨hno, hs⟩ := h
  constructor
  · intro r hr
    obtain ⟨l, hl, h1, h2⟩ := hno r hr
    exact ⟨l, List.mem_append_left _ hl, h1, h2⟩
  · unfold idsSorted at hs ⊢
    unfold createLoan
    rw [List.pairwise_append]
    refine ⟨hs, List.pairwise_singleton _ _, ?_⟩
    intro l hl l' hl' hu
    rcases List.mem_singleton.mp hl' with rfl
    exact id_lt_nextLoanId hl hu

theorem structural_deleteLoan (db : Ledger) (c i : Int)
    (h : structuralInv db) : structuralInv (deleteLoan db c i) := by
  obtain ⟨hno, hs⟩ := h
  constructor
  · intro r hr
    have hr' := List.mem_of_mem_filter hr
    have hcond := List.of_mem_filter hr
    obtain ⟨l, hl, h1, h2⟩ := hno r hr'
    refine ⟨l, List.mem_filter.mpr ⟨hl, ?_⟩, h1, h2⟩
    rw [h1, h2]
    exact hcond
  · exact hs.filter _

theorem structural_applyOp (db : Ledger) (c : Int) (op : LedgerOp)
    (h : structuralInv db) : structuralInv (applyOp db c op) := by
  cases op with
  | createOp b a p =>
    simpa only [applyOp] using structural_createLoan db c b a p h
  | markRepaidOp i d =>
    simp only [applyOp, markFullyRepaid, markFullyRepaidF]
    cases hE : getLoanByID db c i with
    | none => simpa using h
    | some loan =>
      cases hrep : loan.repaid with
      | true => simp [hrep]; exact h
      | false =>
        have hmem := List.mem_of_find?_eq_some hE
        have hpred : loan.userId = c ∧ loan.id = i := by
          have := List.find?_some hE
          simpa using this
        simp only [hrep, Bool.false_eq_true, if_false, Option.getD_some, reduceIte]
        refine structural_addRepayment _ _ ?_ (structural_mapLoans db _ ?_ h)
        · refine ⟨{ loan with repaid := true }, ?_, ?_, ?_⟩
          · refine List.mem_map.mpr ⟨loan, hmem, ?_⟩
            simp [hpred.1, hpred.2]
          · simpa using hpred.1
          · simpa using hpred.2
        · intro l
          by_cases hc : l.userId = c ∧ l.id = i <;> simp [hc]
  | partialRepayOp i a d n =>
    simp only [applyOp, partialRepay]
    cases hE : getLoanByID db c i with
    | none => simpa using h
    | some loan =>
      by_cases hv : a ≤ 0 ∨ loan.amount - getTotalRepaidAmount db c i < a
      · simp [hv]; exact h
      · have hmem := List.mem_of_find?_eq_some hE
        have hpred : loan.userId = c ∧ loan.id = i := by
          have := List.find?_some hE
          simpa using this
        have hadd : structuralInv (addRepayment db ⟨c, i, a, d, n⟩) := by
          refine structural_addRepayment _ _ ?_ h
          exact ⟨loan, hmem, hpred.1, hpred.2⟩
        by_cases hz : loan.amount - getTotalRepaidAmount db c i - a = 0
        · simp only [hv, if_false, if_neg, hz, if_true, if_pos, Option.getD_some]
          exact structural_mapLoans _ _
            (fun l => by by_cases hc : l.userId = c ∧ l.id = i <;> simp [hc]) hadd
        · simp only [hv, if_false, if_neg, hz, if_true, if_pos, Option.getD_some]
          exact hadd
  | editNameOp i v =>
    simp only [applyOp, updateBorrower]
    exact structural_mapLoans db _
      (fun l => by by_cases hc : l.userId = c ∧ l.id = i <;> simp [hc]) h
  | editAmountOp i v =>
    simp only [applyOp]
    by_cases hv : 0 < v
    · simp only [hv, if_true, if_pos, updateAmount]
      exact structural_mapLoans db _
        (fun l => by by_cases hc : l.userId = c ∧ l.id = i <;> simp [hc]) h
    · simp [hv]; exact h
  | editPurposeOp i v =>
    simp only [applyOp, updatePurpose]
    exact structural_mapLoans db _
      (fun l => by by_cases hc : l.userId = c ∧ l.id = i <;> simp [hc]) h
  | deleteOp i =>
    simpa only [applyOp] using structural_deleteLoan db c i h

theorem structural_applyOps (ops : List (Int × LedgerOp)) (db : Ledger)
    (h : structuralInv db) : structuralInv (applyOps db ops) := by
  induction ops generalizing db with
  | nil => exact h
  | cons hd tl ih => exact ih _ (structural_applyOp db hd.1 hd.2 h)

theorem structural_empty : structuralInv ledgerEmpty := by
  constructor
  · intro r hr; cases hr
  · exact List.Pairwise.nil

theorem structural_of_reachable {db : Ledger} (h : Reachable db) : structuralInv db := by
  obtain ⟨ops, rfl⟩ := h
  exact structural_applyOps ops ledgerEmpty structural_empty

theorem getTotalRepaidAmount_setLoans (db : Ledger) (X : List Loan) (c i : Int) :
    getTotalRepaidAmount { db with loans := X } c i = getTotalRepaidAmount db c i := rfl

/-- A freshly allocated id has no repayment rows (structurally well-formed db). -/
theorem getTotalRepaidAmount_fresh (db : Ledger) (c : Int) (h : structuralInv db) :
    getTotalRepaidAmount db c (nextLoanId db c) = 0 := by
  unfold getTotalRepaidAmount
  have hnil : db.repayments.filter
      (fun r => r.userId = c ∧ r.loanId = nextLoanId db c) = [] := by
    rw [List.filter_eq_nil_iff]
    intro r hr
    simp only [decide_eq_true_eq]
    rintro ⟨h1, h2⟩
    obtain ⟨l, hl, e1, e2⟩ := h.1 r hr
    have := id_lt_nextLoanId hl (e1.trans h1)
    omega
  rw [hnil]
  simp

/-- Deleting one loan's rows leaves every other loan's repayment total alone. -/
theorem getTotalRepaidAmount_deleteLoan (db : Ledger) (c i c' i' : Int)
    (h : ¬ (c' = c ∧ i' = i)) :
    getTotalRepaidAmount (deleteLoan db c i) c' i' = getTotalRepaidAmount db c' i' := by
  unfold getTotalRepaidAmount deleteLoan
  rw [List.filter_filter]
  refine congrArg List.sum (congrArg (List.map _) ?_)
  apply List.filter_congr
  intro r hr
  by_cases hm : r.userId = c' ∧ r.loanId = i'
  · simp [hm]
    tauto
  · simp [hm]

/-- An amount-, flag- and id-preserving rewrite of the loan rows keeps the
accounting invariant. -/
theorem acct_mapLoans (db : Ledger) (f : Loan → Loan)
    (hf : ∀ l, (f l).userId = l.userId ∧ (f l).id = l.id ∧
      (f l).amount = l.amount ∧ (f l).repaid = l.repaid)
    (ha : acctOk db) : acctOk { db with loans := db.loans.map f } := by
  intro l' hl'
  obtain ⟨l, hl, rfl⟩ := List.mem_map.mp hl'
  rw [getTotalRepaidAmount_setLoans, (hf l).1, (hf l).2.1, (hf l).2.2.1, (hf l).2.2.2]
  exact ha l hl

/-- Per-owner uniqueness: a stored loan agreeing with a looked-up key is the
looked-up loan. -/
theorem loan_eq_of_key {db : Ledger} (hs : idsSorted db) {c i : Int} {l loan : Loan}
    (hl : l ∈ db.loans) (hE : getLoanByID db c i = some loan)
    (hkey : l.userId = c ∧ l.id = i) : l = loan := by
  have h1 := getLoanByID_self hs hl
  rw [hkey.1, hkey.2, hE] at h1
  exact (Option.some_inj.mp h1).symm

/-- `partialRepay` unfolded at a successful lookup. -/
theorem partialRepay_some (db : Ledger) (c i a : Int) (d n : String) (loan : Loan)
    (hE : getLoanByID db c i = some loan) :
    partialRepay db c i a d n =
      if a ≤ 0 ∨ loan.amount - getTotalRepaidAmount db c i < a then none
      else if loan.amount - getTotalRepaidAmount db c i - a = 0
        then some (setRepaid (addRepayment db ⟨c, i, a, d, n⟩) c i)
        else some (addRepayment db ⟨c, i, a, d, n⟩) := by
  unfold partialRepay
  rw [hE]

/-- One well-behaved operation preserves the accounting invariant. -/
theorem acct_applyOp (db : Ledger) (c : Int) (op : LedgerOp)
    (hstr : structuralInv db) (ha : acctOk db) (hg : goodOp db c op) :
    acctOk (applyOp db c op) := by
  cases op with
  | createOp b a p =>
    have hga : 0 < a := by simpa only [goodOp] using hg
    simp only [applyOp, createLoan]
    intro l' hl'
    rw [getTotalRepaidAmount_setLoans]
    rcases List.mem_append.mp hl' with hmem | hmem
    · exact ha l' hmem
    · rcases List.mem_singleton.mp hmem with rfl
      simp only
      rw [getTotalRepaidAmount_fresh db c hstr]
      exact ⟨by omega, by simp; omega⟩
  | markRepaidOp i d =>
    have hgood : getTotalRepaidAmount db c i = 0 := by simpa only [goodOp] using hg
    simp only [applyOp, markFullyRepaid, markFullyRepaidF]
    cases hE : getLoanByID db c i with
    | none => simpa using ha
    | some loan =>
      cases hrep : loan.repaid with
      | true =>
        simp [hrep]
        exact ha
      | false =>
        simp only [hrep, Bool.false_eq_true, reduceIte, Option.getD_some]
        have hpred : loan.userId = c ∧ loan.id = i := by
          simpa using List.find?_some hE
        intro l' hl'
        obtain ⟨l, hl, rfl⟩ := List.mem_map.mp hl'
        by_cases hcase : l.userId = c ∧ l.id = i
        · have hlu : l = loan := loan_eq_of_key hstr.2 hl hE hcase
          subst hlu
          simp only [hcase.1, hcase.2, and_self, reduceIte]
          rw [getTotalRepaidAmount_addRepayment, getTotalRepaidAmount_setRepaid]
          simp only [hcase.1, hcase.2, and_self, reduceIte]
          rw [hgood]
          refine ⟨by omega, ?_⟩
          simp
        · simp only [hcase, reduceIte]
          rw [getTotalRepaidAmount_addRepayment, getTotalRepaidAmount_setRepaid]
          have hne : ¬ (c = l.userId ∧ i = l.id) := by
            rintro ⟨x1, x2⟩
            exact hcase ⟨x1.symm, x2.symm⟩
          simp only [hne, reduceIte]
          simpa using ha l hl
  | partialRepayOp i a d n =>
    simp only [applyOp]
    cases hE : getLoanByID db c i with
    | none =>
      unfold partialRepay
      rw [hE]
      simpa using ha
    | some loan =>
      rw [partialRepay_some db c i a d n loan hE]
      by_cases hv : a ≤ 0 ∨ loan.amount - getTotalRepaidAmount db c i < a
      · rw [if_pos hv]
        simpa using ha
      · have hpred : loan.userId = c ∧ loan.id = i := by
          simpa using List.find?_some hE
        have hmem := List.mem_of_find?_eq_some hE
        have hv2 := hv
        push_neg at hv2
        obtain ⟨hpos, hle⟩ := hv2
        have hrep0 : loan.repaid = false := by
          rcases ha loan hmem with ⟨hle2, hiff⟩
          rw [hpred.1, hpred.2] at hiff
          cases hrepb : loan.repaid with
          | false => rfl
          | true =>
            rw [hrepb] at hiff
            have h0 : loan.amount - getTotalRepaidAmount db c i = 0 := hiff.mpr rfl
            omega
        rw [if_neg hv]
        by_cases hz : loan.amount - getTotalRepaidAmount db c i - a = 0
        · rw [if_pos hz, Option.getD_some]
          intro l' hl'
          obtain ⟨l, hl, rfl⟩ := List.mem_map.mp hl'
          by_cases hcase : l.userId = c ∧ l.id = i
          · have hlu : l = loan := loan_eq_of_key hstr.2 hl hE hcase
            subst hlu
            simp only [hcase.1, hcase.2, and_self, reduceIte]
            rw [getTotalRepaidAmount_setRepaid, getTotalRepaidAmount_addRepayment]
            simp only [hcase.1, hcase.2, and_self, reduceIte]
            refine ⟨by omega, ?_⟩
            simp
            omega
          · simp only [hcase, reduceIte]
            rw [getTotalRepaidAmount_setRepaid, getTotalRepaidAmount_addRepayment]
            have hne : ¬ (c = l.userId ∧ i = l.id) := by
              rintro ⟨x1, x2⟩
              exact hcase ⟨x1.symm, x2.symm⟩
            simp only [hne, reduceIte]
            simpa using ha l hl
        · rw [if_neg hz, Option.getD_some]
          intro l' hl'
          have hl : l' ∈ db.loans := hl'
          rw [getTotalRepaidAmount_addRepayment]
          by_cases hcase : l'.userId = c ∧ l'.id = i
          · have hlu : l' = loan := loan_eq_of_key hstr.2 hl hE hcase
            subst hlu
            simp only [hpred.1, hpred.2, and_self, reduceIte]
            refine ⟨by omega, ?_⟩
            rw [hrep0]
            simp
            omega
          · have hne : ¬ (c = l'.userId ∧ i = l'.id) := by
              rintro ⟨x1, x2⟩
              exact hcase ⟨x1.symm, x2.symm⟩
            simp only [hne, reduceIte]
            simpa using ha l' hl
  | editNameOp i v =>
    simp only [applyOp, updateBorrower]
    refine acct_mapLoans db _ ?_ ha
    intro l
    by_cases hc : l.userId = c ∧ l.id = i <;> simp [hc]
  | editAmountOp i v =>
    simp only [applyOp]
    by_cases hv : 0 < v
    · rw [if_pos hv]
      have hcond := hg
      simp only [goodOp] at hcond
      have hcond := hcond hv
      cases hE : getLoanByID db c i with
      | none =>
        have hall := List.find?_eq_none.mp hE
        simp only [updateAmount]
        intro l' hl'
        obtain ⟨l, hl, rfl⟩ := List.mem_map.mp hl'
        have hnl : ¬ (l.userId = c ∧ l.id = i) := by simpa using hall l hl
        simp only [hnl, reduceIte]
        rw [getTotalRepaidAmount_setLoans]
        exact ha l hl
      | some l0 =>
        simp only [hE] at hcond
        simp only [updateAmount]
        intro l' hl'
        obtain ⟨l, hl, rfl⟩ := List.mem_map.mp hl'
        by_cases hcase : l.userId = c ∧ l.id = i
        · have hlu : l = l0 := loan_eq_of_key hstr.2 hl hE hcase
          subst hlu
          simp only [hcase.1, hcase.2, and_self, reduceIte]
          rw [getTotalRepaidAmount_setLoans]
          exact hcond
        · simp only [hcase, reduceIte]
          rw [getTotalRepaidAmount_setLoans]
          exact ha l hl
    · rw [if_neg hv]
      exact ha
  | editPurposeOp i v =>
    simp only [applyOp, updatePurpose]
    refine acct_mapLoans db _ ?_ ha
    intro l
    by_cases hc : l.userId = c ∧ l.id = i <;> simp [hc]
  | deleteOp i =>
    simp only [applyOp]
    intro l' hl'
    have hl'2 : l' ∈ db.loans.filter (fun l => ¬ (l.userId = c ∧ l.id = i)) := hl'
    have hl := List.mem_of_mem_filter hl'2
    have hcond := List.of_mem_filter hl'2
    have hkey : ¬ (l'.userId = c ∧ l'.id = i) := of_decide_eq_true hcond
    rw [getTotalRepaidAmount_deleteLoan db c i l'.userId l'.id hkey]
    exact ha l' hl

theorem acct_empty : acctOk ledgerEmpty := by
  intro l hl
  cases hl

/-- Along a sequence of well-behaved operations both invariants persist. -/
theorem inv_goodOps (ops : List (Int × LedgerOp)) (db : Ledger)
    (hstr : structuralInv db) (ha : acctOk db) (hg : goodOps db ops) :
    structuralInv (applyOps db ops) ∧ acctOk (applyOps db ops) := by
  induction ops generalizing db with
  | nil => exact ⟨hstr, ha⟩
  | cons hd tl ih =>
    obtain ⟨c, op⟩ := hd
    obtain ⟨hg1, hg2⟩ := hg
    exact ih (applyOp db c op) (structural_applyOp db c op hstr)
      (acct_applyOp db c op hstr ha hg1) hg2

/-- `find?` skips a prefix in which it finds nothing. -/
theorem find?_append_none {α : Type} (p : α → Bool) (l₁ l₂ : List α)
    (h : l₁.find? p = none) : (l₁ ++ l₂).find? p = l₂.find? p := by
  rw [List.find?_append, h, Option.none_or]

/-- Setting a scratch key makes it readable. -/
theorem dataGet_dataSet_self (d : List (String × String)) (k v : String) :
    dataGet (dataSet d k v) k = some v := by
  unfold dataGet dataSet
  by_cases hany : d.any (fun p => p.1 = k)
  · rw [if_pos hany]
    induction d with
    | nil => simp at hany
    | cons p t ih =>
      by_cases hp : p.1 = k
      · simp [hp, List.find?]
      · have h' : t.any (fun p => p.1 = k) = true := by simpa [hp] using hany
        simp only [List.map_cons]
        rw [List.find?_cons_of_neg _ (by simp only [decide_eq_true_eq, if_neg hp]; exact hp)]
        exact ih h'
  · rw [if_neg hany]
    have hnone : d.find? (fun p => decide (p.1 = k)) = none := by
      rw [List.find?_eq_none]
      intro p hp
      simp only [decide_eq_true_eq]
      intro hk
      exact hany (List.any_eq_true.mpr ⟨p, hp, by simpa using hk⟩)
    rw [find?_append_none _ _ _ hnone]
    simp [List.find?]

/-- Setting one scratch key leaves every other key's value unchanged. -/
theorem dataGet_dataSet_ne (d : List (String × String)) (k v k' : String)
    (h : k' ≠ k) : dataGet (dataSet d k v) k' = dataGet d k' := by
  unfold dataGet dataSet
  by_cases hany : d.any (fun p => p.1 = k)
  · rw [if_pos hany]
    clear hany
    induction d with
    | nil => rfl
    | cons p t ih =>
      by_cases hp : p.1 = k
      · simp only [List.map_cons, if_pos hp]
        rw [List.find?_cons_of_neg _ (by simpa using Ne.symm h),
          List.find?_cons_of_neg _ (by simp only [decide_eq_true_eq, hp]; exact Ne.symm h)]
        exact ih
      · simp only [List.map_cons, if_neg hp]
        by_cases hp' : p.1 = k'
        · rw [List.find?_cons_of_pos _ (by simpa using hp'),
            List.find?_cons_of_pos _ (by simpa using hp')]
        · rw [List.find?_cons_of_neg _ (by simpa using hp'),
            List.find?_cons_of_neg _ (by simpa using hp')]
          exact ih
  · rw [if_neg hany, List.find?_append]
    have : [(k, v)].find? (fun p => decide (p.1 = k')) = none := by
      simp [List.find?, h.symm]
    rw [this, Option.or_none]

/-- `markFullyRepaidF` unfolded at a successful lookup. -/
theorem markFullyRepaidF_some (db : Ledger) (c i : Int) (dt : String) (f : Bool)
    (loan : Loan) (hE : getLoanByID db c i = some loan) :
    markFullyRepaidF db c i dt f =
      if loan.repaid then none
      else if f then some (setRepaid db c i)
      else some (addRepayment (setRepaid db c i)
        ⟨c, i, loan.amount, dt, "Полный возврат"⟩) := by
  unfold markFullyRepaidF
  rw [hE]

/-- The repaid-flag update rewrites lookups pointwise. -/
theorem getLoanByID_setRepaid (db : Ledger) (c i c' i' : Int) :
    getLoanByID (setRepaid db c i) c' i' = (getLoanByID db c' i').map
      (fun l => if l.userId = c ∧ l.id = i then { l with repaid := true } else l) := by
  unfold getLoanByID setRepaid
  rw [List.find?_map]
  have hp : ((fun l : Loan => decide (l.userId = c' ∧ l.id = i')) ∘
      (fun l => if l.userId = c ∧ l.id = i then { l with repaid := true } else l)) =
      (fun l : Loan => decide (l.userId = c' ∧ l.id = i')) := by
    funext l
    by_cases hc : l.userId = c ∧ l.id = i <;> simp [hc, Function.comp]
  rw [hp]

/-! ## Claims -/

/-- C1: the claim as stated is false on the code. Create a loan of 100, repay
30 partially, then mark it fully repaid through the repay-full flow: the flow
inserts the loan's full principal (100) as a repayment, so the repayment total
reaches 130 > 100 and the remaining balance is −30 although the loan is
flagged repaid. -/
theorem claim_C1_counterexample :
    ¬ acctOk (applyOps ledgerEmpty
      [(7, LedgerOp.createOp "Ayan" 100 "rent"),
       (7, LedgerOp.partialRepayOp 1 30 "2026-01-01" ""),
       (7, LedgerOp.markRepaidOp 1 "2026-01-02")]) ∧
    getTotalRepaidAmount (applyOps ledgerEmpty
      [(7, LedgerOp.createOp "Ayan" 100 "rent"),
       (7, LedgerOp.partialRepayOp 1 30 "2026-01-01" ""),
       (7, LedgerOp.markRepaidOp 1 "2026-01-02")]) 7 1 = 130 ∧
    remainingBalance (applyOps ledgerEmpty
      [(7, LedgerOp.createOp "Ayan" 100 "rent"),
       (7, LedgerOp.partialRepayOp 1 30 "2026-01-01" ""),
       (7, LedgerOp.markRepaidOp 1 "2026-01-02")]) 7 1 = -30 ∧
    getLoanByID (applyOps ledgerEmpty
      [(7, LedgerOp.createOp "Ayan" 100 "rent"),
       (7, LedgerOp.partialRepayOp 1 30 "2026-01-01" ""),
       (7, LedgerOp.markRepaidOp 1 "2026-01-02")]) 7 1
      = some ⟨1, 7, "Ayan", 100, "rent", true⟩ := by
  refine ⟨by decide, by decide, by decide, by decide⟩

/-- C1 (amended): `RemainingBalance + Σrepayments = principal` holds for every
stored loan of any well-formed ledger, and the invariants `Σ ≤ principal` and
`remaining = 0 ↔ repaid` hold after any sequence of operations in which every
CreateLoan has a positive amount, MarkFullyRepaid is applied only to loans
with no prior repayments, and every effective amount edit keeps the new
amount at least the repaid total with equality exactly on repaid loans. -/
theorem claim_C1_amended (ops : List (Int × LedgerOp))
    (hg : goodOps ledgerEmpty ops) :
    acctOk (applyOps ledgerEmpty ops) ∧
    ∀ l ∈ (applyOps ledgerEmpty ops).loans,
      remainingBalance (applyOps ledgerEmpty ops) l.userId l.id +
        getTotalRepaidAmount (applyOps ledgerEmpty ops) l.userId l.id = l.amount := by
  obtain ⟨hstr, ha⟩ := inv_goodOps ops ledgerEmpty structural_empty acct_empty hg
  refine ⟨ha, ?_⟩
  intro l hl
  have hfind := getLoanByID_self hstr.2 hl
  simp only [remainingBalance, hfind]
  omega

/-- Witness for C1 (amended): scenario A of the spec. -/
theorem claim_C1_amended_witness :
    acctOk (applyOps ledgerEmpty
      [(7, LedgerOp.createOp "Ayan" 50000 "rent"),
       (7, LedgerOp.partialRepayOp 1 20000 "2026-01-01" ""),
       (7, LedgerOp.partialRepayOp 1 30000 "2026-01-02" "done")]) ∧
    remainingBalance (applyOps ledgerEmpty
      [(7, LedgerOp.createOp "Ayan" 50000 "rent"),
       (7, LedgerOp.partialRepayOp 1 20000 "2026-01-01" ""),
       (7, LedgerOp.partialRepayOp 1 30000 "2026-01-02" "done")]) 7 1 +
      getTotalRepaidAmount (applyOps ledgerEmpty
        [(7, LedgerOp.createOp "Ayan" 50000 "rent"),
         (7, LedgerOp.partialRepayOp 1 20000 "2026-01-01" ""),
         (7, LedgerOp.partialRepayOp 1 30000 "2026-01-02" "done")]) 7 1 = 50000 := by
  have h := claim_C1_amended
    [(7, LedgerOp.createOp "Ayan" 50000 "rent"),
     (7, LedgerOp.partialRepayOp 1 20000 "2026-01-01" ""),
     (7, LedgerOp.partialRepayOp 1 30000 "2026-01-02" "done")] (by decide)
  exact ⟨h.1, h.2 ⟨1, 7, "Ayan", 50000, "rent", true⟩ (by decide)⟩

/-- C2: the claim as stated is false on the code. For an active loan of 100
with a prior partial repayment of 30 (remaining balance 70), the repay-full
flow inserts a repayment of the full stored principal 100, not the remaining
balance 70. -/
theorem claim_C2_counterexample :
    remainingBalance (Ledger.mk [⟨1, 7, "Ayan", 100, "rent", false⟩]
      [⟨7, 1, 30, "2026-01-01", ""⟩]) 7 1 = 70 ∧
    markFullyRepaid (Ledger.mk [⟨1, 7, "Ayan", 100, "rent", false⟩]
        [⟨7, 1, 30, "2026-01-01", ""⟩]) 7 1 "2026-01-02"
      = some (Ledger.mk [⟨1, 7, "Ayan", 100, "rent", true⟩]
          [⟨7, 1, 30, "2026-01-01", ""⟩,
           ⟨7, 1, 100, "2026-01-02", "Полный возврат"⟩]) := by
  refine ⟨by decide, by decide⟩

/-- C2 (amended): on success for an active loan the flow sets repaid=true and
inserts a repayment equal to the loan's full stored principal (not the
remaining balance), through two separate non-transactional writes: when the
repayment insert fails, the code proceeds with the loan already marked repaid
and no repayment row added, a visible partial effect. -/
theorem claim_C2_amended (db : Ledger) (c i : Int) (dt : String) (loan : Loan)
    (hstr : structuralInv db) (hmem : loan ∈ db.loans)
    (hkey : loan.userId = c ∧ loan.id = i) (hact : loan.repaid = false) :
    markFullyRepaid db c i dt
      = some (addRepayment (setRepaid db c i)
          ⟨c, i, loan.amount, dt, "Полный возврат"⟩) ∧
    getLoanByID (addRepayment (setRepaid db c i)
        ⟨c, i, loan.amount, dt, "Полный возврат"⟩) c i
      = some { loan with repaid := true } ∧
    getTotalRepaidAmount (addRepayment (setRepaid db c i)
        ⟨c, i, loan.amount, dt, "Полный возврат"⟩) c i
      = getTotalRepaidAmount db c i + loan.amount ∧
    markFullyRepaidF db c i dt true = some (setRepaid db c i) ∧
    getLoanByID (setRepaid db c i) c i = some { loan with repaid := true } ∧
    getTotalRepaidAmount (setRepaid db c i) c i = getTotalRepaidAmount db c i := by
  have hE : getLoanByID db c i = some loan := by
    have h0 := getLoanByID_self hstr.2 hmem
    rw [hkey.1, hkey.2] at h0
    exact h0
  have hlook : getLoanByID (setRepaid db c i) c i = some { loan with repaid := true } := by
    rw [getLoanByID_setRepaid, hE]
    simp [hkey.1, hkey.2]
  refine ⟨?_, ?_, ?_, ?_, hlook, rfl⟩
  · rw [markFullyRepaid, markFullyRepaidF_some db c i dt false loan hE, hact]
    simp
  · exact hlook
  · rw [getTotalRepaidAmount_addRepayment, getTotalRepaidAmount_setRepaid]
    simp
  · rw [markFullyRepaidF_some db c i dt true loan hE, hact]
    simp

/-- Witness for C2 (amended). -/
theorem claim_C2_amended_witness :
    markFullyRepaid (Ledger.mk [⟨1, 7, "Ayan", 100, "rent", false⟩]
        [⟨7, 1, 30, "2026-01-01", ""⟩]) 7 1 "2026-01-02"
      = some (addRepayment (setRepaid (Ledger.mk [⟨1, 7, "Ayan", 100, "rent", false⟩]
          [⟨7, 1, 30, "2026-01-01", ""⟩]) 7 1)
          ⟨7, 1, 100, "2026-01-02", "Полный возврат"⟩) ∧
    markFullyRepaidF (Ledger.mk [⟨1, 7, "Ayan", 100, "rent", false⟩]
        [⟨7, 1, 30, "2026-01-01", ""⟩]) 7 1 "2026-01-02" true
      = some (setRepaid (Ledger.mk [⟨1, 7, "Ayan", 100, "rent", false⟩]
          [⟨7, 1, 30, "2026-01-01", ""⟩]) 7 1) := by
  have h := claim_C2_amended (Ledger.mk [⟨1, 7, "Ayan", 100, "rent", false⟩]
    [⟨7, 1, 30, "2026-01-01", ""⟩]) 7 1 "2026-01-02"
    ⟨1, 7, "Ayan", 100, "rent", false⟩ (by decide) (by decide) (by decide) rfl
  exact ⟨h.1, h.2.2.2.1⟩

/-- C3: the add-loan flow evaluated at borrower "Ayan", amount "-5", purpose
"rent": step 1 accepts the parseable negative amount and the terminal step
inserts a loan with amount −5, contradicting the claimed validation. -/
theorem claim_C3_bug :
    handleAddLoanStep ⟨"addloan", 0, [], 0⟩ ledgerEmpty 7 "Ayan" 1
      = (some ⟨"addloan", 1, [("borrower_name", "Ayan")], 1⟩, ledgerEmpty,
        AddLoanReply.promptAmount) ∧
    handleAddLoanStep ⟨"addloan", 1, [("borrower_name", "Ayan")], 1⟩ ledgerEmpty 7 "-5" 2
      = (some ⟨"addloan", 2, [("borrower_name", "Ayan"), ("amount", "-5")], 2⟩,
        ledgerEmpty, AddLoanReply.promptPurpose) ∧
    handleAddLoanStep ⟨"addloan", 2, [("borrower_name", "Ayan"), ("amount", "-5")], 2⟩
        ledgerEmpty 7 "rent" 3
      = (none, Ledger.mk [⟨1, 7, "Ayan", -5, "rent", false⟩] [],
        AddLoanReply.created 1) := by
  refine ⟨by decide, by decide, by decide⟩

/-- C4: every invalid-input rejection branch of every flow step returns the
session record unchanged (same step, same scratch data) and the ledger
unchanged: empty borrower or purpose and non-numeric amount in add-loan,
non-numeric id in repay step 0, an answer other than «да»/«нет» in repay
step 1, non-numeric or non-positive or over-remaining amounts in
partial-repay step 1, and invalid amounts in the edit flow. Since the state
is returned identically, resubmitting invalid input any number of times
(in particular twice at add-loan step 1) leaves the session at the same step
and creates no loan. -/
theorem claim_C4 (st : UserState) (db : Ledger) (c : Int) (now : Nat) (dt : String) :
    (∀ text, st.step = 0 → text = "" →
      handleAddLoanStep st db c text now = (some st, db, AddLoanReply.errEmptyName)) ∧
    (∀ text, st.step = 1 → goParseInt text = none →
      handleAddLoanStep st db c text now = (some st, db, AddLoanReply.errBadAmount)) ∧
    (∀ text, st.step = 2 → text = "" →
      handleAddLoanStep st db c text now = (some st, db, AddLoanReply.errEmptyPurpose)) ∧
    (∀ text, st.step = 0 → goAtoi text = none →
      handleRepayLoanStep st db c text now dt = (some st, db, RepayReply.errBadId)) ∧
    (∀ text, st.step = 1 → goToLower text ≠ "да" → goToLower text ≠ "нет" →
      handleRepayLoanStep st db c text now dt = (some st, db, RepayReply.askYesNo)) ∧
    (∀ text loanID, goAtoi ((dataGet st.data "loan_id").getD "") = some loanID →
      st.step = 1 →
      (goParseInt text = none ∨ ∃ a, goParseInt text = some a ∧ a ≤ 0) →
      handlePartialRepaymentStep st db c text now dt
        = (some st, db, PartialReply.errBadAmount)) ∧
    (∀ text a loanID, goAtoi ((dataGet st.data "loan_id").getD "") = some loanID →
      st.step = 1 → goParseInt text = some a → 0 < a →
      goParseIntD ((dataGet st.data "remaining_amount").getD "") < a →
      handlePartialRepaymentStep st db c text now dt
        = (some st, db, PartialReply.errOverRemaining a
            (goParseIntD ((dataGet st.data "remaining_amount").getD "")))) ∧
    (∀ text loanID, goAtoi ((dataGet st.data "loan_id").getD "") = some loanID →
      st.step = 1 → (dataGet st.data "edit_field").getD "" = "amount" →
      (goParseInt text = none ∨ ∃ a, goParseInt text = some a ∧ a ≤ 0) →
      handleEditLoanStep st db c text = (some st, db, EditReply.errBadAmount)) := by
  refine ⟨?_, ?_, ?_, ?_, ?_, ?_, ?_, ?_⟩
  · intro text hstep htext
    simp [handleAddLoanStep, hstep, htext]
  · intro text hstep hparse
    simp [handleAddLoanStep, hstep, hparse]
  · intro text hstep htext
    simp [handleAddLoanStep, hstep, htext]
  · intro text hstep hparse
    simp [handleRepayLoanStep, hstep, hparse]
  · intro text hstep hy hn
    simp [handleRepayLoanStep, hstep, hy, hn]
  · intro text loanID hid hstep hbad
    rcases hbad with hnone | ⟨a, ha, hle⟩
    · simp [handlePartialRepaymentStep, hid, hstep, hnone]
    · simp [handlePartialRepaymentStep, hid, hstep, ha, hle]
  · intro text a loanID hid hstep hparse hpos hlt
    have hna : ¬ a ≤ 0 := by omega
    simp [handlePartialRepaymentStep, hid, hstep, hparse, hna, hlt]
  · intro text loanID hid hstep hfield hbad
    rcases hbad with hnone | ⟨a, ha, hle⟩
    · simp [handleEditLoanStep, hid, hstep, hfield, hnone]
    · simp [handleEditLoanStep, hid, hstep, hfield, ha, hle]

/-- Witness for C4: concrete invalid submissions at add-loan step 1 and
partial-repay step 1 leave the concrete session and empty ledger unchanged. -/
theorem claim_C4_witness :
    handleAddLoanStep ⟨"addloan", 1, [("borrower_name", "Ayan")], 0⟩ ledgerEmpty 7 "abc" 5
      = (some ⟨"addloan", 1, [("borrower_name", "Ayan")], 0⟩, ledgerEmpty,
        AddLoanReply.errBadAmount) ∧
    handlePartialRepaymentStep
        ⟨"partialrepay", 1, [("loan_id", "1"), ("remaining_amount", "70")], 0⟩
        ledgerEmpty 7 "100" 5 "2026-01-01"
      = (some ⟨"partialrepay", 1, [("loan_id", "1"), ("remaining_amount", "70")], 0⟩,
        ledgerEmpty, PartialReply.errOverRemaining 100 70) := by
  have h := claim_C4 ⟨"addloan", 1, [("borrower_name", "Ayan")], 0⟩ ledgerEmpty 7 5 "2026-01-01"
  have h2 := claim_C4 ⟨"partialrepay", 1, [("loan_id", "1"), ("remaining_amount", "70")], 0⟩
    ledgerEmpty 7 5 "2026-01-01"
  refine ⟨h.2.1 "abc" rfl (by decide), ?_⟩
  have h3 := h2.2.2.2.2.2.2.1 "100" 100 1 (by decide) rfl (by decide) (by decide) (by decide)
  simpa using h3

/-- C5: loan creation allocates strictly above every existing id of the owner,
and the new id is either 1 (owner has no loans, also right after deletes
emptied them) or one more than an existing owner id (the maximum); the loan is
inserted with repaid=false and is immediately retrievable with zero
repayments and a remaining balance equal to the full principal. -/
theorem claim_C5 (db : Ledger) (c : Int) (b : String) (a : Int) (p : String)
    (hstr : structuralInv db) :
    (∀ l ∈ db.loans, l.userId = c → l.id < (createLoan db c b a p).2) ∧
    ((createLoan db c b a p).2 = 1 ∨
      ∃ l ∈ db.loans, l.userId = c ∧ (createLoan db c b a p).2 = l.id + 1) ∧
    (getAllLoansForUser db c = [] → (createLoan db c b a p).2 = 1) ∧
    getLoanByID (createLoan db c b a p).1 c (createLoan db c b a p).2
      = some ⟨(createLoan db c b a p).2, c, b, a, p, false⟩ ∧
    getTotalRepaidAmount (createLoan db c b a p).1 c (createLoan db c b a p).2 = 0 ∧
    remainingBalance (createLoan db c b a p).1 c (createLoan db c b a p).2 = a := by
  have hfst : (createLoan db c b a p).1
      = { db with loans := db.loans ++ [⟨nextLoanId db c, c, b, a, p, false⟩] } := rfl
  have hsnd : (createLoan db c b a p).2 = nextLoanId db c := rfl
  have hfresh : getTotalRepaidAmount db c (nextLoanId db c) = 0 :=
    getTotalRepaidAmount_fresh db c hstr
  have hlook : getLoanByID (createLoan db c b a p).1 c (createLoan db c b a p).2
      = some ⟨(createLoan db c b a p).2, c, b, a, p, false⟩ := by
    rw [hfst, hsnd]
    unfold getLoanByID
    have hnone : db.loans.find?
        (fun l => decide (l.userId = c ∧ l.id = nextLoanId db c)) = none := by
      rw [List.find?_eq_none]
      intro l hl
      simp only [decide_eq_true_eq]
      rintro ⟨h1, h2⟩
      have := id_lt_nextLoanId hl h1
      omega
    rw [show ({ db with loans := db.loans ++ [⟨nextLoanId db c, c, b, a, p, false⟩] } :
        Ledger).loans = db.loans ++ [⟨nextLoanId db c, c, b, a, p, false⟩] from rfl]
    rw [find?_append_none _ _ _ hnone]
    simp [List.find?]
  refine ⟨?_, ?_, ?_, hlook, ?_, ?_⟩
  · intro l hl hu
    rw [hsnd]
    exact id_lt_nextLoanId hl hu
  · rw [hsnd]
    cases hm : ((db.loans.filter (fun l => l.userId = c)).map (·.id)).max? with
    | none =>
      left
      unfold nextLoanId
      rw [hm]
      rfl
    | some m =>
      right
      have hmem := List.max?_mem max_choice hm
      obtain ⟨l, hlf, hlid⟩ := List.mem_map.mp hmem
      refine ⟨l, List.mem_of_mem_filter hlf, ?_, ?_⟩
      · have := List.of_mem_filter hlf
        simpa using this
      · unfold nextLoanId
        rw [hm]
        simp [hlid]
  · intro h0
    rw [hsnd]
    unfold nextLoanId
    unfold getAllLoansForUser at h0
    rw [h0]
    rfl
  · rw [hfst, hsnd, getTotalRepaidAmount_setLoans]
    exact hfresh
  · simp only [remainingBalance, hlook]
    rw [hfst, hsnd, getTotalRepaidAmount_setLoans, hfresh]
    omega

/-- Witness for C5: a ledger with loans 1 and 2 of owner 7 (loan 2 repaid) and
one repayment; after creating, the new id is 3 with full remaining balance. -/
theorem claim_C5_witness :
    (∀ l ∈ (Ledger.mk [⟨1, 7, "A", 50, "x", false⟩, ⟨2, 7, "B", 80, "y", true⟩]
        [⟨7, 2, 80, "d", ""⟩]).loans, l.userId = 7 →
      l.id < (createLoan (Ledger.mk [⟨1, 7, "A", 50, "x", false⟩,
        ⟨2, 7, "B", 80, "y", true⟩] [⟨7, 2, 80, "d", ""⟩]) 7 "C" 60 "z").2) ∧
    remainingBalance (createLoan (Ledger.mk [⟨1, 7, "A", 50, "x", false⟩,
        ⟨2, 7, "B", 80, "y", true⟩] [⟨7, 2, 80, "d", ""⟩]) 7 "C" 60 "z").1 7
      (createLoan (Ledger.mk [⟨1, 7, "A", 50, "x", false⟩,
        ⟨2, 7, "B", 80, "y", true⟩] [⟨7, 2, 80, "d", ""⟩]) 7 "C" 60 "z").2 = 60 := by
  have h := claim_C5 (Ledger.mk [⟨1, 7, "A", 50, "x", false⟩,
    ⟨2, 7, "B", 80, "y", true⟩] [⟨7, 2, 80, "d", ""⟩]) 7 "C" 60 "z" (by decide)
  exact ⟨h.1, h.2.2.2.2.2⟩

/-- C6: the claim as stated is false on the code. With loan 1 of owner 7
already repaid, entering "1" at step 0 of the repay-full flow leaves the
session at step 0 of the repay flow (re-prompt), not cleared back to idle. -/
theorem claim_C6_counterexample :
    handleRepayLoanStep ⟨"repayloan", 0, [], 0⟩
        (Ledger.mk [⟨1, 7, "Ayan", 100, "rent", true⟩] [⟨7, 1, 100, "d", ""⟩])
        7 "1" 1 "d2"
      = (some ⟨"repayloan", 0, [], 0⟩,
        Ledger.mk [⟨1, 7, "Ayan", 100, "rent", true⟩] [⟨7, 1, 100, "d", ""⟩],
        RepayReply.notFoundOrRepaid) := by
  decide

/-- C6 (amended): at step 0 of the repay-full flow a loan id with no row at
all hits the scan-error path, which clears the session back to idle with an
error message; an id whose loan exists but is already repaid produces the
not-found message and leaves the session at the same step for retry. Neither
path writes to the ledger. -/
theorem claim_C6_amended (st : UserState) (db : Ledger) (c : Int) (now : Nat)
    (dt : String) (text : String) (loanID : Int) (hstep : st.step = 0)
    (hparse : goAtoi text = some loanID) :
    (getLoanByID db c loanID = none →
      handleRepayLoanStep st db c text now dt = (none, db, RepayReply.errScan)) ∧
    ((getLoanByID db c loanID).map (·.repaid) = some true →
      handleRepayLoanStep st db c text now dt
        = (some st, db, RepayReply.notFoundOrRepaid)) := by
  constructor
  · intro hnone
    simp [handleRepayLoanStep, hstep, hparse, hnone]
  · intro hsome
    cases hE : getLoanByID db c loanID with
    | none =>
      rw [hE] at hsome
      exact absurd hsome (by simp)
    | some loan =>
      rw [hE] at hsome
      simp at hsome
      simp [handleRepayLoanStep, hstep, hparse, hE, hsome]

/-- Witness for C6 (amended): a nonexistent id clears the session to idle. -/
theorem claim_C6_amended_witness :
    handleRepayLoanStep ⟨"repayloan", 0, [], 0⟩ ledgerEmpty 7 "3" 1 "d"
      = (none, ledgerEmpty, RepayReply.errScan) :=
  (claim_C6_amended ⟨"repayloan", 0, [], 0⟩ ledgerEmpty 7 1 "d" "3" 3 rfl
    (by decide)).1 (by decide)

/-- C7: DeleteLoan is all-or-nothing. On success the loan row is gone (lookup
is the no-rows NotFound), no repayment row for the pair remains (total 0 and
empty filter), and every other row of both tables survives; on any failing
step the transaction rolls back and the database is unchanged. -/
theorem claim_C7 (db : Ledger) (c i : Int) (f : TxFail) :
    ((deleteLoanTx db c i f).2 = true →
      getLoanByID (deleteLoanTx db c i f).1 c i = none ∧
      getTotalRepaidAmount (deleteLoanTx db c i f).1 c i = 0 ∧
      (deleteLoanTx db c i f).1.repayments.filter
        (fun r => r.userId = c ∧ r.loanId = i) = [] ∧
      remainingBalance (deleteLoanTx db c i f).1 c i = 0 ∧
      (∀ l ∈ db.loans, ¬ (l.userId = c ∧ l.id = i) →
        l ∈ (deleteLoanTx db c i f).1.loans) ∧
      (∀ r ∈ db.repayments, ¬ (r.userId = c ∧ r.loanId = i) →
        r ∈ (deleteLoanTx db c i f).1.repayments)) ∧
    ((deleteLoanTx db c i f).2 = false → (deleteLoanTx db c i f).1 = db) := by
  cases f with
  | atRepayments => exact ⟨fun h => by simp [deleteLoanTx] at h, fun _ => rfl⟩
  | atLoan => exact ⟨fun h => by simp [deleteLoanTx] at h, fun _ => rfl⟩
  | atCommit => exact ⟨fun h => by simp [deleteLoanTx] at h, fun _ => rfl⟩
  | noFail =>
    refine ⟨fun _ => ?_, fun h => by simp [deleteLoanTx] at h⟩
    have hres : (deleteLoanTx db c i TxFail.noFail).1 = deleteLoan db c i := rfl
    have hlook : getLoanByID (deleteLoan db c i) c i = none := by
      unfold getLoanByID deleteLoan
      rw [List.find?_eq_none]
      intro l hl
      have hthis := List.of_mem_filter hl
      simp only [decide_eq_true_eq] at hthis ⊢
      exact hthis
    have hsum : getTotalRepaidAmount (deleteLoan db c i) c i = 0 := by
      unfold getTotalRepaidAmount deleteLoan
      rw [List.filter_filter]
      rw [show List.filter _ db.repayments = ([] : List Repayment) from ?_]
      · rfl
      · rw [List.filter_eq_nil_iff]
        intro r hr
        by_cases hcond : r.userId = c ∧ r.loanId = i <;> simp [hcond]
    have hset : (deleteLoan db c i).repayments.filter
        (fun r => r.userId = c ∧ r.loanId = i) = [] := by
      unfold deleteLoan
      rw [List.filter_filter, List.filter_eq_nil_iff]
      intro r hr
      by_cases hcond : r.userId = c ∧ r.loanId = i <;> simp [hcond]
    rw [hres]
    refine ⟨hlook, hsum, hset, ?_, ?_, ?_⟩
    · unfold remainingBalance
      rw [hlook]
    · intro l hl hcond
      exact List.mem_filter.mpr ⟨hl, decide_eq_true hcond⟩
    · intro r hr hcond
      exact List.mem_filter.mpr ⟨hr, decide_eq_true hcond⟩

/-- Witness for C7: deleting loan 1 of owner 7 removes its row and repayments
and keeps owner 9's loan. -/
theorem claim_C7_witness :
    getLoanByID (deleteLoanTx (Ledger.mk [⟨1, 7, "A", 50, "x", false⟩,
        ⟨1, 9, "B", 80, "y", false⟩] [⟨7, 1, 10, "d", ""⟩]) 7 1 TxFail.noFail).1 7 1
      = none ∧
    (⟨1, 9, "B", 80, "y", false⟩ : Loan) ∈
      (deleteLoanTx (Ledger.mk [⟨1, 7, "A", 50, "x", false⟩,
        ⟨1, 9, "B", 80, "y", false⟩] [⟨7, 1, 10, "d", ""⟩]) 7 1 TxFail.noFail).1.loans := by
  have h := claim_C7 (Ledger.mk [⟨1, 7, "A", 50, "x", false⟩,
    ⟨1, 9, "B", 80, "y", false⟩] [⟨7, 1, 10, "d", ""⟩]) 7 1 TxFail.noFail
  have hs := h.1 rfl
  exact ⟨hs.1, hs.2.2.2.2.1 ⟨1, 9, "B", 80, "y", false⟩ (by decide) (by decide)⟩

/-- C8: search-by-name keeps exactly the owner's loans whose borrower name
contains the query as an ASCII-case-insensitive substring ("ay" matches both
"Ayan" and "Maya" and not "Bob"), and the search step sends the dedicated
nothing-found reply when no loan matches, a rendered result list otherwise. -/
theorem claim_C8 (db : Ledger) (st : UserState) (c : Int) (q : String)
    (hstep : st.step = 0)
    (hty : (dataGet st.data "search_type").getD "" = "by_name") :
    likeContains "Ayan" "ay" = true ∧
    likeContains "Maya" "ay" = true ∧
    likeContains "Bob" "ay" = false ∧
    (∀ l, l ∈ searchLoansByName db c q ↔
      (l ∈ db.loans ∧ l.userId = c ∧ likeContains l.borrower q = true)) ∧
    (searchLoansByName db c q = [] →
      handleSearchStep st db c q = (none, db, SearchReply.nothingFound q)) ∧
    (searchLoansByName db c q ≠ [] →
      handleSearchStep st db c q
        = (none, db, SearchReply.results (searchLoansByName db c q))) := by
  refine ⟨by decide, by decide, by decide, ?_, ?_, ?_⟩
  · intro l
    simp [searchLoansByName, List.mem_filter, and_assoc]
  · intro hempty
    unfold handleSearchStep
    rw [if_pos ⟨hstep, hty⟩]
    simp [hempty]
  · intro hne
    unfold handleSearchStep
    rw [if_pos ⟨hstep, hty⟩]
    simp [List.isEmpty_iff, hne]

/-- Witness for C8: searching an empty ledger produces the nothing-found
reply. -/
theorem claim_C8_witness :
    handleSearchStep ⟨"searchloan", 0, [("search_type", "by_name")], 0⟩ ledgerEmpty 7 "ay"
      = (none, ledgerEmpty, SearchReply.nothingFound "ay") :=
  (claim_C8 ledgerEmpty ⟨"searchloan", 0, [("search_type", "by_name")], 0⟩ 7 "ay" rfl
    (by decide)).2.2.2.2.1 (by decide)

/-- In a ledger with per-owner ascending stored ids, any owner-scoped filter
projects to a strictly ascending id sequence. -/
theorem proj_sorted (db : Ledger) (hs : idsSorted db) (p : Loan → Bool) (c : Int)
    (hp : ∀ l, p l = true → l.userId = c) :
    List.Pairwise (· < ·) ((db.loans.filter p).map (·.id)) := by
  rw [List.pairwise_map]
  refine (hs.filter p).imp_of_mem ?_
  intro a b ha hb hab
  exact hab ((hp a (List.of_mem_filter ha)).trans (hp b (List.of_mem_filter hb)).symm)

/-- C9: on every ledger reachable by the program's operations, all four
read-only projections (active, all, by-status, search-by-name) list the
owner's loans with strictly ascending loan ids — the stored (insertion)
order, which the `MAX(loan_id)+1` allocation keeps ascending per owner. -/
theorem claim_C9 (db : Ledger) (h : Reachable db) (c : Int) (b : Bool) (q : String) :
    List.Pairwise (· < ·) ((getActiveLoansForUser db c).map (·.id)) ∧
    List.Pairwise (· < ·) ((getAllLoansForUser db c).map (·.id)) ∧
    List.Pairwise (· < ·) ((getLoansByStatus db c b).map (·.id)) ∧
    List.Pairwise (· < ·) ((searchLoansByName db c q).map (·.id)) := by
  have hs : idsSorted db := (structural_of_reachable h).2
  refine ⟨proj_sorted db hs _ c ?_, proj_sorted db hs _ c ?_,
    proj_sorted db hs _ c ?_, proj_sorted db hs _ c ?_⟩
  · intro l hl
    exact (of_decide_eq_true hl).1
  · intro l hl
    exact of_decide_eq_true hl
  · intro l hl
    exact (of_decide_eq_true hl).1
  · intro l hl
    exact (of_decide_eq_true hl).1

/-- Witness for C9: a reachable ledger built by two creates, a delete and a
re-create for owner 7 plus one loan of owner 9. -/
theorem claim_C9_witness :
    List.Pairwise (· < ·) ((getActiveLoansForUser (applyOps ledgerEmpty
      [(7, LedgerOp.createOp "Ayan" 100 "rent"), (7, LedgerOp.createOp "Maya" 50 "x"),
       (9, LedgerOp.createOp "Bob" 10 "y"), (7, LedgerOp.deleteOp 1),
       (7, LedgerOp.createOp "Dana" 70 "z")]) 7).map (·.id)) ∧
    List.Pairwise (· < ·) ((getAllLoansForUser (applyOps ledgerEmpty
      [(7, LedgerOp.createOp "Ayan" 100 "rent"), (7, LedgerOp.createOp "Maya" 50 "x"),
       (9, LedgerOp.createOp "Bob" 10 "y"), (7, LedgerOp.deleteOp 1),
       (7, LedgerOp.createOp "Dana" 70 "z")]) 7).map (·.id)) ∧
    List.Pairwise (· < ·) ((getLoansByStatus (applyOps ledgerEmpty
      [(7, LedgerOp.createOp "Ayan" 100 "rent"), (7, LedgerOp.createOp "Maya" 50 "x"),
       (9, LedgerOp.createOp "Bob" 10 "y"), (7, LedgerOp.deleteOp 1),
       (7, LedgerOp.createOp "Dana" 70 "z")]) 7 false).map (·.id)) ∧
    List.Pairwise (· < ·) ((searchLoansByName (applyOps ledgerEmpty
      [(7, LedgerOp.createOp "Ayan" 100 "rent"), (7, LedgerOp.createOp "Maya" 50 "x"),
       (9, LedgerOp.createOp "Bob" 10 "y"), (7, LedgerOp.deleteOp 1),
       (7, LedgerOp.createOp "Dana" 70 "z")]) 7 "ay").map (·.id)) :=
  claim_C9 (applyOps ledgerEmpty
      [(7, LedgerOp.createOp "Ayan" 100 "rent"), (7, LedgerOp.createOp "Maya" 50 "x"),
       (9, LedgerOp.createOp "Bob" 10 "y"), (7, LedgerOp.deleteOp 1),
       (7, LedgerOp.createOp "Dana" 70 "z")])
    ⟨[(7, LedgerOp.createOp "Ayan" 100 "rent"), (7, LedgerOp.createOp "Maya" 50 "x"),
      (9, LedgerOp.createOp "Bob" 10 "y"), (7, LedgerOp.deleteOp 1),
      (7, LedgerOp.createOp "Dana" 70 "z")], rfl⟩ 7 false "ay"

/-- C10: the session-store writes are frame-disjoint: for an existing record,
`SaveStateData` rewrites only the addressed scratch key (operation, step,
last-updated and all other keys unchanged), and `SetState` rewrites only
operation, step and last-updated (all scratch data unchanged); neither
touches any other owner's record. -/
theorem claim_C10 (s : Store) (c : Int) (st : UserState) (hs : s c = some st)
    (k v op : String) (stp : Int) (now : Nat) :
    (saveStateData s c k v) c = some { st with data := dataSet st.data k v } ∧
    dataGet (dataSet st.data k v) k = some v ∧
    (∀ k', k' ≠ k → dataGet (dataSet st.data k v) k' = dataGet st.data k') ∧
    (setState s c op stp now) c
      = some { st with operation := op, step := stp, lastUpdated := now } ∧
    (∀ i, i ≠ c → (saveStateData s c k v) i = s i) ∧
    (∀ i, i ≠ c → (setState s c op stp now) i = s i) := by
  refine ⟨?_, dataGet_dataSet_self st.data k v, ?_, ?_, ?_, ?_⟩
  · simp [saveStateData, hs]
  · intro k' hk'
    exact dataGet_dataSet_ne st.data k v k' hk'
  · simp [setState, hs]
  · intro i hi
    simp [saveStateData, hi]
  · intro i hi
    simp [setState, hi]

/-- Witness for C10 on a concrete one-record store. -/
theorem claim_C10_witness :
    (saveStateData (fun i => if i = 7 then some ⟨"addloan", 1, [("x", "1")], 5⟩ else none)
        7 "amount" "50") 7
      = some ⟨"addloan", 1, dataSet [("x", "1")] "amount" "50", 5⟩ ∧
    (setState (fun i => if i = 7 then some ⟨"addloan", 1, [("x", "1")], 5⟩ else none)
        7 "addloan" 2 9) 7
      = some ⟨"addloan", 2, [("x", "1")], 9⟩ := by
  have h := claim_C10 (fun i => if i = 7 then some ⟨"addloan", 1, [("x", "1")], 5⟩ else none)
    7 ⟨"addloan", 1, [("x", "1")], 5⟩ (by simp) "amount" "50" "addloan" 2 9
  exact ⟨h.1, h.2.2.2.1⟩

end TamyrZaim
